import Mathlib

/-!
Formal model of the agent-genesis hybrid search-and-index daemon.

Each definition is a shallow embedding of a function from the daemon
source tree (src/daemon).  External library collaborators (the chromadb
client, the Python datetime library, hashlib.md5) are passed in as
explicit function parameters; everything the repository itself computes
is embedded as an executable Lean definition.  Machine words are
modelled as natural numbers reduced modulo 2^32 where the source relies
on 32-bit overflow (the SHA-256 compression used for document ids).
-/

set_option maxRecDepth 4000

/-! SHA-256 over byte lists, as used by hashlib.sha256 in
chroma_worker._handle_index.  Bytes and 32-bit words are natural
numbers; every word-sized operation reduces modulo 2^32. -/

def M32 : Nat := 4294967296

/-- Rotate a 32-bit word right by n bits. -/
def rotr (n x : Nat) : Nat := ((x >>> n) ||| (x <<< (32 - n))) % M32

/-- The 64 SHA-256 round constants. -/
def sha256K : List Nat :=
  [1116352408, 1899447441, 3049323471, 3921009573, 961987163,
   1508970993, 2453635748, 2870763221, 3624381080, 310598401,
   607225278, 1426881987, 1925078388, 2162078206, 2614888103,
   3248222580, 3835390401, 4022224774, 264347078, 604807628,
   770255983, 1249150122, 1555081692, 1996064986, 2554220882,
   2821834349, 2952996808, 3210313671, 3336571891, 3584528711,
   113926993, 338241895, 666307205, 773529912, 1294757372,
   1396182291, 1695183700, 1986661051, 2177026350, 2456956037,
   2730485921, 2820302411, 3259730800, 3345764771, 3516065817,
   3600352804, 4094571909, 275423344, 430227734, 506948616,
   659060556, 883997877, 958139571, 1322822218, 1537002063,
   1747873779, 1955562222, 2024104815, 2227730452, 2361852424,
   2428436474, 2756734187, 3204031479, 3329325298]

/-- The SHA-256 initial hash value. -/
def sha256H0 : List Nat :=
  [1779033703, 3144134277, 1013904242, 2773480762,
   1359893119, 2600822924, 528734635, 1541459225]

/-- Pack big-endian groups of four bytes into 32-bit words. -/
def bytesToWords : List Nat → List Nat
  | b0 :: b1 :: b2 :: b3 :: rest =>
      ((b0 <<< 24) ||| (b1 <<< 16) ||| (b2 <<< 8) ||| b3) :: bytesToWords rest
  | _ => []

/-- One SHA-256 compression round applied to a 64-byte block. -/
def sha256Compress (h : List Nat) (block : List Nat) : List Nat := Id.run do
  let mut w := (bytesToWords block).toArray
  for i in [16:64] do
    let w15 := w.getD (i - 15) 0
    let w2 := w.getD (i - 2) 0
    let s0 := (rotr 7 w15) ^^^ (rotr 18 w15) ^^^ (w15 >>> 3)
    let s1 := (rotr 17 w2) ^^^ (rotr 19 w2) ^^^ (w2 >>> 10)
    w := w.push ((w.getD (i - 16) 0 + s0 + w.getD (i - 7) 0 + s1) % M32)
  let mut a := h.getD 0 0
  let mut b := h.getD 1 0
  let mut c := h.getD 2 0
  let mut d := h.getD 3 0
  let mut e := h.getD 4 0
  let mut f := h.getD 5 0
  let mut g := h.getD 6 0
  let mut hh := h.getD 7 0
  for i in [0:64] do
    let s1 := (rotr 6 e) ^^^ (rotr 11 e) ^^^ (rotr 25 e)
    let ch := (e &&& f) ^^^ ((e ^^^ 0xffffffff) &&& g)
    let temp1 := (hh + s1 + ch + sha256K.getD i 0 + w.getD i 0) % M32
    let s0 := (rotr 2 a) ^^^ (rotr 13 a) ^^^ (rotr 22 a)
    let maj := (a &&& b) ^^^ (a &&& c) ^^^ (b &&& c)
    let temp2 := (s0 + maj) % M32
    hh := g
    g := f
    f := e
    e := (d + temp1) % M32
    d := c
    c := b
    b := a
    a := (temp1 + temp2) % M32
  return [(h.getD 0 0 + a) % M32, (h.getD 1 0 + b) % M32,
          (h.getD 2 0 + c) % M32, (h.getD 3 0 + d) % M32,
          (h.getD 4 0 + e) % M32, (h.getD 5 0 + f) % M32,
          (h.getD 6 0 + g) % M32, (h.getD 7 0 + hh) % M32]

/-- Big-endian 8-byte encoding of a length in bits. -/
def be64 (n : Nat) : List Nat :=
  [(n >>> 56) % 256, (n >>> 48) % 256, (n >>> 40) % 256, (n >>> 32) % 256,
   (n >>> 24) % 256, (n >>> 16) % 256, (n >>> 8) % 256, n % 256]

/-- SHA-256 message padding: a 0x80 byte, zeros to 56 mod 64, then the
bit length as a big-endian 64-bit integer. -/
def sha256Pad (msg : List Nat) : List Nat :=
  let len := msg.length
  let zeros := (56 + 64 - ((len + 1) % 64)) % 64
  msg ++ [0x80] ++ List.replicate zeros 0 ++ be64 (len * 8)

/-- Split a byte list into 64-byte blocks. -/
def chunks64 : List Nat → List (List Nat)
  | [] => []
  | l@(_ :: _) => l.take 64 :: chunks64 (l.drop 64)
termination_by l => l.length
decreasing_by simp_all [List.length_drop]; omega

/-- The SHA-256 digest (32 bytes) of a byte list. -/
def sha256 (msg : List Nat) : List Nat :=
  let final := (chunks64 (sha256Pad msg)).foldl sha256Compress sha256H0
  final.flatMap (fun x => [(x >>> 24) % 256, (x >>> 16) % 256, (x >>> 8) % 256, x % 256])

/-- Lower-case hex digit. -/
def hexChar (n : Nat) : Char :=
  if n < 10 then Char.ofNat (48 + n) else Char.ofNat (87 + n)

/-- Lower-case hex string of a byte list, as hexdigest() produces. -/
def bytesToHex (bs : List Nat) : String :=
  String.mk (bs.flatMap (fun b => [hexChar ((b >>> 4) % 16), hexChar (b % 16)]))

/-- UTF-8 encoding of one character, as str.encode() produces. -/
def utf8EncodeChar (c : Char) : List Nat :=
  let n := c.toNat
  if n < 0x80 then [n]
  else if n < 0x800 then
    [0xc0 ||| (n >>> 6), 0x80 ||| (n &&& 0x3f)]
  else if n < 0x10000 then
    [0xe0 ||| (n >>> 12), 0x80 ||| ((n >>> 6) &&& 0x3f), 0x80 ||| (n &&& 0x3f)]
  else
    [0xf0 ||| (n >>> 18), 0x80 ||| ((n >>> 12) &&& 0x3f),
     0x80 ||| ((n >>> 6) &&& 0x3f), 0x80 ||| (n &&& 0x3f)]

/-- UTF-8 bytes of a string. -/
def utf8Bytes (s : String) : List Nat := s.data.flatMap utf8EncodeChar

/-- hashlib.sha256(s.encode()).hexdigest() for a string s. -/
def sha256HexOfString (s : String) : String := bytesToHex (sha256 (utf8Bytes s))

/-- Document id minted by chroma_worker._handle_index:
sha256 of the string conversation_id, a colon, the message index, a
colon, and the first 200 characters of the content, truncated to the
first 36 hex digits. -/
def doc_id (conversation_id : String) (msg_idx : Nat) (content : String) : String :=
  (sha256HexOfString
    (conversation_id ++ ":" ++ toString msg_idx ++ ":" ++ content.take 200)).take 36

/-- C2: the document id assigned by the worker is a pure function of
exactly the triple of conversation id, message ordinal and the first
200 characters of the content: two contents that agree on their first
200 characters receive the same id for the same conversation and
ordinal, and no other input enters the computation. -/
theorem c2_theorem (cid : String) (idx : Nat) (content content' : String)
    (h : content.take 200 = content'.take 200) :
    doc_id cid idx content = doc_id cid idx content' := by
  unfold doc_id
  rw [h]

/-- Witness for c2_theorem at a concrete triple. -/
theorem c2_witness :
    "hello".take 200 = "hello".take 200 ∧
      doc_id "conv-1" 0 "hello" = doc_id "conv-1" 0 "hello" :=
  ⟨rfl, c2_theorem "conv-1" 0 "hello" "hello" rfl⟩

/-- Python truthiness of content.strip(): a string is blank when every
character is whitespace (so stripping it leaves the empty, falsy,
string).  Stated over the character list so that it evaluates inside
the kernel. -/
def isBlank (s : String) : Bool := s.data.all (fun c => c.isWhitespace)

/-! Data model shared by the two ingest paths.  A message and a
conversation carry the fields the source reads off the incoming
dictionaries (absent optional fields are already defaulted to the
empty string, as the .get calls do); a stored document is an id, a
text and a metadata record; a chromadb collection is modelled as the
ordered list of its stored documents. -/

inductive PyExc where
  | valueError (msg : String)
  | typeError (msg : String)
  | attributeError (msg : String)
  | runtimeError (msg : String)
deriving Repr, DecidableEq

structure Msg where
  role : String
  content : String
  timestamp : String
deriving Repr, DecidableEq

structure Conv where
  id : String
  project : String
  cwd : String
  git_branch : String
  metadataSource : Option String
  messages : List Msg
deriving Repr, DecidableEq

structure DocMeta where
  conversation_id : String
  role : String
  timestamp : String
  project : String
  source : String
  cwd : String
  git_branch : String
deriving Repr, DecidableEq

structure Entry where
  id : String
  document : String
  metadata : DocMeta
deriving Repr, DecidableEq

abbrev Collection := List Entry

/-- The ids currently stored in a collection. -/
def colIds (c : Collection) : List String := c.map (fun o => o.id)

/-- chromadb upsert of one (document, metadata, id) triple: replace the
stored document when the id is present, append it otherwise. -/
def upsert1 (c : Collection) (e : Entry) : Collection :=
  if c.any (fun o => o.id == e.id) then
    c.map (fun o => if o.id == e.id then e else o)
  else c ++ [e]

/-- chromadb collection.upsert of a batch, processed in order. -/
def upsertEntries (c : Collection) (es : List Entry) : Collection :=
  es.foldl upsert1 c

/-- chromadb collection.add of a batch: a document whose id already
exists is not inserted again; fresh ids are appended. -/
def chromaAdd (c : Collection) (es : List Entry) : Collection :=
  es.foldl (fun c e => if c.any (fun o => o.id == e.id) then c else c ++ [e]) c

/-- Metadata built for one message by chroma_worker._handle_index:
conversation fields plus the hard-coded source marker "jsonl". -/
def workerMeta (conv : Conv) (m : Msg) : DocMeta :=
  { conversation_id := conv.id, role := m.role, timestamp := m.timestamp,
    project := conv.project, source := "jsonl", cwd := conv.cwd,
    git_branch := conv.git_branch }

/-- The (documents, metadatas, ids) triples built by
chroma_worker._handle_index: messages are enumerated, whitespace-only
contents are skipped (their enumerate index is still consumed), and
each kept message receives the deterministic doc_id. -/
def workerBuildEntries (conv : Conv) : List Entry :=
  conv.messages.enum.filterMap (fun p =>
    if isBlank p.2.content then none
    else some { id := doc_id conv.id p.1 p.2.content, document := p.2.content,
                metadata := workerMeta conv p.2 })

/-- chroma_worker._handle_index restricted to its storage effect on the
resolved target collection: build the batch and upsert it when it is
non-empty. -/
def workerIndex (conv : Conv) (col : Collection) : Collection :=
  let entries := workerBuildEntries conv
  if entries.isEmpty then col else upsertEntries col entries

/-! Helper notions for the upsert idempotence proof. -/

/-- Replace every stored document carrying the given entry's id. -/
def replace1 (c : Collection) (e : Entry) : Collection :=
  c.map (fun o => if o.id == e.id then e else o)

/-- The net effect of replaying a batch on one stored document. -/
def applyAll (es : List Entry) (o : Entry) : Entry :=
  es.foldl (fun o e => if o.id == e.id then e else o) o

/-- The last entry of a batch carrying a given id, if any. -/
def lastWith : List Entry → String → Option Entry
  | [], _ => none
  | e :: rest, x =>
    match lastWith rest x with
    | some r => some r
    | none => if e.id == x then some e else none

theorem list_map_eq_self {α : Type} (l : List α) (f : α → α)
    (h : ∀ a ∈ l, f a = a) : l.map f = l := by
  induction l with
  | nil => rfl
  | cons a rest ih =>
    simp only [List.map_cons]
    rw [h a (List.mem_cons_self a rest), ih (fun b hb => h b (List.mem_cons_of_mem a hb))]

theorem colIds_replace1 (c : Collection) (e : Entry) :
    colIds (replace1 c e) = colIds c := by
  unfold colIds replace1
  rw [List.map_map]
  apply List.map_congr_left
  intro a _
  by_cases h : a.id = e.id
  · simp [Function.comp, h]
  · simp [Function.comp, h]

theorem mem_colIds_upsert1_self (c : Collection) (e : Entry) :
    e.id ∈ colIds (upsert1 c e) := by
  unfold upsert1
  by_cases h : c.any (fun o => o.id == e.id)
  · simp only [h, if_true]
    rw [show (c.map (fun o => if o.id == e.id then e else o)) = replace1 c e from rfl,
        colIds_replace1]
    simp only [List.any_eq_true, beq_iff_eq] at h
    obtain ⟨o, ho, hoe⟩ := h
    exact hoe ▸ List.mem_map_of_mem (fun o => o.id) ho
  · simp only [h, if_false, Bool.false_eq_true, if_neg]
    simp [colIds]

theorem mem_colIds_upsert1_mono (c : Collection) (e : Entry) (x : String)
    (h : x ∈ colIds c) : x ∈ colIds (upsert1 c e) := by
  unfold upsert1
  by_cases hc : c.any (fun o => o.id == e.id)
  · simp only [hc, if_true]
    rw [show (c.map (fun o => if o.id == e.id then e else o)) = replace1 c e from rfl,
        colIds_replace1]
    exact h
  · simp only [hc, Bool.false_eq_true, if_neg, not_false_iff]
    simp only [colIds, List.map_append] at *
    exact List.mem_append_left _ h

theorem mem_colIds_upsertEntries_mono (es : List Entry) :
    ∀ (c : Collection) (x : String), x ∈ colIds c → x ∈ colIds (upsertEntries c es) := by
  induction es with
  | nil => intro c x h; exact h
  | cons e rest ih =>
    intro c x h
    exact ih (upsert1 c e) x (mem_colIds_upsert1_mono c e x h)

theorem mem_colIds_upsertEntries_self (es : List Entry) :
    ∀ (c : Collection), ∀ e ∈ es, e.id ∈ colIds (upsertEntries c es) := by
  induction es with
  | nil => intro c e h; cases h
  | cons e rest ih =>
    intro c e' he'
    rcases List.mem_cons.mp he' with h | h
    · subst h
      exact mem_colIds_upsertEntries_mono rest (upsert1 c e') e'.id
        (mem_colIds_upsert1_self c e')
    · exact ih (upsert1 c e) e' h

theorem upsert1_eq_replace1_of_mem (c : Collection) (e : Entry)
    (h : e.id ∈ colIds c) : upsert1 c e = replace1 c e := by
  unfold upsert1 replace1
  have : c.any (fun o => o.id == e.id) = true := by
    simp only [List.any_eq_true, beq_iff_eq]
    simp only [colIds, List.mem_map] at h
    obtain ⟨o, ho, hoe⟩ := h
    exact ⟨o, ho, hoe⟩
  simp [this]

theorem upsertEntries_eq_foldl_replace1 (es : List Entry) :
    ∀ (c : Collection), (∀ e ∈ es, e.id ∈ colIds c) →
      upsertEntries c es = es.foldl replace1 c := by
  induction es with
  | nil => intro c _; rfl
  | cons e rest ih =>
    intro c h
    have he : e.id ∈ colIds c := h e (List.mem_cons_self e rest)
    show upsertEntries (upsert1 c e) rest = rest.foldl replace1 (replace1 c e)
    rw [upsert1_eq_replace1_of_mem c e he]
    exact ih (replace1 c e) (fun e' he' => by
      rw [colIds_replace1]
      exact h e' (List.mem_cons_of_mem e he'))

theorem foldl_replace1_eq_map (es : List Entry) :
    ∀ (c : Collection), es.foldl replace1 c = c.map (applyAll es) := by
  induction es with
  | nil =>
    intro c
    have h : List.map (applyAll []) c = c :=
      list_map_eq_self c (applyAll []) (fun a _ => rfl)
    exact h.symm
  | cons e rest ih =>
    intro c
    show rest.foldl replace1 (replace1 c e) = c.map (applyAll (e :: rest))
    rw [ih (replace1 c e)]
    unfold replace1
    rw [List.map_map]
    rfl

theorem lastWith_eq_none_not_mem (es : List Entry) (x : String)
    (h : lastWith es x = none) : x ∉ es.map (fun e => e.id) := by
  induction es with
  | nil => simp
  | cons e rest ih =>
    simp only [lastWith] at h
    rcases hr : lastWith rest x with _ | r
    · rw [hr] at h
      simp only [List.map_cons, List.mem_cons]
      rintro (hx | hx)
      · rw [← hx] at h; simp at h
      · exact ih hr hx
    · rw [hr] at h; cases h

theorem applyAll_eq_lastWith (es : List Entry) :
    ∀ (o : Entry), applyAll es o = (lastWith es o.id).getD o := by
  induction es with
  | nil => intro o; rfl
  | cons e rest ih =>
    intro o
    show applyAll rest (if o.id == e.id then e else o) = _
    by_cases h : o.id = e.id
    · simp only [h, beq_self_eq_true, if_true]
      rw [ih e]
      simp only [lastWith, ← h]
      rcases hr : lastWith rest o.id with _ | r <;> simp [hr, h]
    · have hb : (o.id == e.id) = false := by simp [h]
      simp only [hb, Bool.false_eq_true, if_neg, not_false_iff]
      rw [ih o]
      simp only [lastWith]
      have hb' : (e.id == o.id) = false := by
        simp only [beq_eq_false_iff_ne, ne_eq]
        exact fun hc => h hc.symm
      rcases hr : lastWith rest o.id with _ | r <;> simp [hr, hb']

theorem mem_upsert1_of_ne_id (c : Collection) (e o : Entry)
    (h : o ∈ upsert1 c e) (hne : o.id ≠ e.id) : o ∈ c := by
  unfold upsert1 at h
  by_cases hc : c.any (fun o => o.id == e.id)
  · simp only [hc, if_true] at h
    obtain ⟨o', ho', heq⟩ := List.mem_map.mp h
    by_cases h' : o'.id = e.id
    · simp only [h', beq_self_eq_true, if_true] at heq
      rw [← heq] at hne
      exact absurd rfl hne
    · have : (o'.id == e.id) = false := by simp [h']
      simp only [this, Bool.false_eq_true, if_neg, not_false_iff] at heq
      exact heq ▸ ho'
  · simp only [hc, Bool.false_eq_true, if_neg, not_false_iff] at h
    rcases List.mem_append.mp h with h' | h'
    · exact h'
    · rw [List.mem_singleton.mp h'] at hne
      exact absurd rfl hne

theorem eq_of_mem_upsert1_id (c : Collection) (e o : Entry)
    (h : o ∈ upsert1 c e) (hid : o.id = e.id) : o = e := by
  unfold upsert1 at h
  by_cases hc : c.any (fun o => o.id == e.id)
  · simp only [hc, if_true] at h
    obtain ⟨o', ho', heq⟩ := List.mem_map.mp h
    by_cases h' : o'.id = e.id
    · simp only [h', beq_self_eq_true, if_true] at heq
      exact heq.symm
    · have : (o'.id == e.id) = false := by simp [h']
      simp only [this, Bool.false_eq_true, if_neg, not_false_iff] at heq
      rw [← heq] at hid
      exact absurd hid h'
  · simp only [hc, Bool.false_eq_true, if_neg, not_false_iff] at h
    rcases List.mem_append.mp h with h' | h'
    · exfalso
      have : c.any (fun o => o.id == e.id) = true := by
        simp only [List.any_eq_true, beq_iff_eq]
        exact ⟨o, h', hid⟩
      rw [this] at hc
      exact hc rfl
    · exact List.mem_singleton.mp h'

theorem mem_upsertEntries_of_not_mem_ids (es : List Entry) :
    ∀ (c : Collection) (o : Entry), o ∈ upsertEntries c es →
      o.id ∉ es.map (fun e => e.id) → o ∈ c := by
  induction es with
  | nil => intro c o h _; exact h
  | cons e rest ih =>
    intro c o h hx
    simp only [List.map_cons, List.mem_cons, not_or] at hx
    have h1 : o ∈ upsert1 c e := ih (upsert1 c e) o h hx.2
    exact mem_upsert1_of_ne_id c e o h1 hx.1

theorem mem_upsertEntries_lastWith (es : List Entry) :
    ∀ (c : Collection) (o : Entry), o ∈ upsertEntries c es →
      ∀ r, lastWith es o.id = some r → o = r := by
  induction es with
  | nil => intro c o _ r hr; cases hr
  | cons e rest ih =>
    intro c o h r hr
    simp only [lastWith] at hr
    rcases hrest : lastWith rest o.id with _ | r'
    · rw [hrest] at hr
      by_cases hid : e.id = o.id
      · simp only [hid, beq_self_eq_true, if_true, Option.some.injEq] at hr
        have hnotin : o.id ∉ rest.map (fun e => e.id) :=
          lastWith_eq_none_not_mem rest o.id hrest
        have h1 : o ∈ upsert1 c e :=
          mem_upsertEntries_of_not_mem_ids rest (upsert1 c e) o h hnotin
        rw [← hr]
        exact eq_of_mem_upsert1_id c e o h1 hid.symm
      · have : (e.id == o.id) = false := by simp [hid]
        simp only [this, Bool.false_eq_true, if_neg, not_false_iff] at hr
        cases hr
    · rw [hrest] at hr
      injection hr with hrr
      subst hrr
      exact ih (upsert1 c e) o h _ hrest

theorem upsertEntries_idem (c : Collection) (es : List Entry) :
    upsertEntries (upsertEntries c es) es = upsertEntries c es := by
  have hids : ∀ e ∈ es, e.id ∈ colIds (upsertEntries c es) :=
    mem_colIds_upsertEntries_self es c
  rw [upsertEntries_eq_foldl_replace1 es (upsertEntries c es) hids,
      foldl_replace1_eq_map es (upsertEntries c es)]
  apply list_map_eq_self
  intro o ho
  rw [applyAll_eq_lastWith es o]
  rcases hr : lastWith es o.id with _ | r
  · rfl
  · exact (mem_upsertEntries_lastWith es c o ho r hr).symm

/-- C1 (amended): the worker's index method is idempotent.  Its
document ids are the deterministic doc_id hashes and it commits with
upsert, so indexing the same conversation a second time leaves the
target collection exactly as it was: the same stored state, hence the
same document count and the same set of document ids. -/
theorem c1_theorem (conv : Conv) (col : Collection) :
    workerIndex conv (workerIndex conv col) = workerIndex conv col := by
  unfold workerIndex
  rcases h : workerBuildEntries conv with _ | ⟨e, rest⟩
  · simp
  · simp only [List.isEmpty_cons, Bool.false_eq_true, if_neg, not_false_iff]
    exact upsertEntries_idem col (e :: rest)

/-! The DualSourceKnowledgeDB ingest path (knowledge_db_dual.py).
index_conversation resolves the target collection (auto-detection from
metadata.source), builds one document per non-empty message, mints a
fresh uuid4 id for each, and commits with collection.add.  The uuid4
supply is modelled as a function from a call counter to a string
together with the counter state, which the caller threads through. -/

/-- Source-to-collection auto-detection map of index_conversation. -/
def collectionMapLookup (src : String) : Option String :=
  if src.toLower == "json" then some "alpha"
  else if src.toLower == "leveldb" then some "beta"
  else none

/-- Collection resolution of index_conversation: explicit names pass
through; auto requires a truthy metadata.source that maps to a known
collection, otherwise a ValueError is raised. -/
def resolveCollection (conv : Conv) (collection : String) : Except PyExc String :=
  if collection == "auto" then
    match conv.metadataSource with
    | none => Except.error (PyExc.valueError "Missing source field in metadata required for auto-detection")
    | some src =>
      if src == "" then
        Except.error (PyExc.valueError "Missing source field in metadata required for auto-detection")
      else
        match collectionMapLookup src with
        | some c => Except.ok c
        | none => Except.error (PyExc.valueError "Unknown source for auto-detection")
  else Except.ok collection

/-- Per-message metadata built by index_conversation: the conversation
fields plus the hard-coded source marker "jsonl". -/
def dualMessageMeta (conv : Conv) (m : Msg) : DocMeta :=
  { conversation_id := conv.id, role := m.role, timestamp := m.timestamp,
    project := conv.project, source := "jsonl", cwd := conv.cwd,
    git_branch := conv.git_branch }

/-- One loop iteration of index_conversation: skip a whitespace-only
message, otherwise append its document with a freshly minted uuid4 id
and advance the id supply counter. -/
def dualStep (conv : Conv) (genId : Nat → String) (acc : List Entry × Nat) (m : Msg) :
    List Entry × Nat :=
  if isBlank m.content then acc
  else (acc.1 ++ [{ id := genId acc.2, document := m.content,
                    metadata := dualMessageMeta conv m }], acc.2 + 1)

/-- The (documents, metadatas, ids) batch built by index_conversation,
with the next id-supply counter. -/
def dualBuildEntries (conv : Conv) (genId : Nat → String) (k : Nat) :
    List Entry × Nat :=
  conv.messages.foldl (dualStep conv genId) ([], k)

/-- The two persistent collections of DualSourceKnowledgeDB. -/
structure DBState where
  alpha : Collection
  beta : Collection
deriving Repr, DecidableEq

/-- DualSourceKnowledgeDB.index_conversation: resolve and validate the
target collection, return early when the conversation has no messages,
build the batch with uuid4 ids, and commit it with collection.add when
it is non-empty. -/
def index_conversation (conv : Conv) (collection : String) (db : DBState)
    (genId : Nat → String) (k : Nat) : Except PyExc (DBState × Nat) :=
  match resolveCollection conv collection with
  | Except.error e => Except.error e
  | Except.ok col =>
    if col == "alpha" || col == "beta" then
      if conv.messages.isEmpty then Except.ok (db, k)
      else
        let built := dualBuildEntries conv genId k
        if built.1.isEmpty then Except.ok (db, built.2)
        else if col == "alpha" then
          Except.ok ({ db with alpha := chromaAdd db.alpha built.1 }, built.2)
        else
          Except.ok ({ db with beta := chromaAdd db.beta built.1 }, built.2)
    else Except.error (PyExc.valueError "Invalid collection")

/-- Sample conversation used by the concrete counterexamples. -/
def convOneMsg : Conv :=
  { id := "conv-a", project := "proj", cwd := "", git_branch := "",
    metadataSource := some "json",
    messages := [{ role := "user", content := "hello world", timestamp := "2025-01-01T00:00:00" }] }

/-- An injective uuid4 stand-in: each draw from the supply is a string
that was never produced before. -/
def uuidSupply (n : Nat) : String := "uuid-" ++ toString n

/-- C1 counterexample: ingesting the same one-message conversation
twice through DualSourceKnowledgeDB.index_conversation leaves the
alpha collection with two stored documents, not one — each call mints
a fresh uuid4 id and collection.add appends it, so the ingest is not
idempotent and the claim fails on this path. -/
theorem c1_counterexample :
    (index_conversation convOneMsg "alpha" ⟨[], []⟩ uuidSupply 0).toOption.map
        (fun p => p.1.alpha.length) = some 1 ∧
      ((index_conversation convOneMsg "alpha" ⟨[], []⟩ uuidSupply 0).bind
          (fun p => index_conversation convOneMsg "alpha" p.1 uuidSupply p.2)).toOption.map
        (fun p => p.1.alpha.length) = some 2 := by
  constructor <;> decide

theorem dualBuild_source_aux (conv : Conv) (genId : Nat → String) :
    ∀ (msgs : List Msg) (acc : List Entry × Nat),
      (∀ e ∈ acc.1, e.metadata.source = "jsonl") →
      ∀ e ∈ (msgs.foldl (dualStep conv genId) acc).1, e.metadata.source = "jsonl" := by
  intro msgs
  induction msgs with
  | nil => intro acc h e he; exact h e he
  | cons m rest ih =>
    intro acc h e he
    refine ih (dualStep conv genId acc m) ?_ e he
    intro e' he'
    unfold dualStep at he'
    by_cases hb : isBlank m.content
    · simp only [hb, if_true] at he'
      exact h e' he'
    · simp only [hb, Bool.false_eq_true, if_neg, not_false_iff] at he'
      rcases List.mem_append.mp he' with h' | h'
      · exact h e' h'
      · rw [List.mem_singleton.mp h']
        rfl

/-- C9: every document built for storage by index_conversation and by
the worker's index method carries metadata whose source field is the
literal string "jsonl", for every conversation and id supply,
regardless of the target collection and of the conversation's actual
origin. -/
theorem c9_theorem :
    (∀ (conv : Conv), ∀ e ∈ workerBuildEntries conv, e.metadata.source = "jsonl") ∧
      (∀ (conv : Conv) (genId : Nat → String) (k : Nat),
        ∀ e ∈ (dualBuildEntries conv genId k).1, e.metadata.source = "jsonl") := by
  constructor
  · intro conv e he
    unfold workerBuildEntries at he
    obtain ⟨p, _, hfp⟩ := List.mem_filterMap.mp he
    by_cases hb : isBlank p.2.content
    · simp only [hb, if_true] at hfp
      cases hfp
    · simp only [hb, Bool.false_eq_true, if_neg, not_false_iff] at hfp
      injection hfp with hfp
      rw [← hfp]
      rfl
  · intro conv genId k e he
    exact dualBuild_source_aux conv genId conv.messages ([], k)
      (fun e' he' => absurd he' (List.not_mem_nil e')) e he

/-- The single entry the worker builds from convOneMsg. -/
def workerEntryC9 : Entry :=
  { id := doc_id "conv-a" 0 "hello world", document := "hello world",
    metadata := workerMeta convOneMsg
      { role := "user", content := "hello world", timestamp := "2025-01-01T00:00:00" } }

/-- The single entry index_conversation builds from convOneMsg. -/
def dualEntryC9 : Entry :=
  { id := uuidSupply 0, document := "hello world",
    metadata := dualMessageMeta convOneMsg
      { role := "user", content := "hello world", timestamp := "2025-01-01T00:00:00" } }

/-- Witness for c9_theorem on the concrete sample conversation. -/
theorem c9_witness :
    (workerEntryC9 ∈ workerBuildEntries convOneMsg ∧
        workerEntryC9.metadata.source = "jsonl") ∧
      (dualEntryC9 ∈ (dualBuildEntries convOneMsg uuidSupply 0).1 ∧
        dualEntryC9.metadata.source = "jsonl") := by
  have h1 : workerEntryC9 ∈ workerBuildEntries convOneMsg :=
    List.mem_singleton.mpr rfl
  have h2 : dualEntryC9 ∈ (dualBuildEntries convOneMsg uuidSupply 0).1 :=
    List.mem_singleton.mpr rfl
  exact ⟨⟨h1, c9_theorem.1 convOneMsg workerEntryC9 h1⟩,
         ⟨h2, c9_theorem.2 convOneMsg uuidSupply 0 dualEntryC9 h2⟩⟩

/-! The unified query path (DualSourceKnowledgeDB.query_unified) and
the HTTP adapter field handling (api_server.handle_search).  The
chromadb collection.query call embeds the ANN search and is passed in
as a parameter; query_unified contributes the validation, the
per-collection dispatch loop, the distance sort, the truncation, and
the shape of the returned dictionary. -/

structure ResultRow where
  id : String
  document : String
  metadata : DocMeta
  distance : Int
  collection : String
deriving Repr, DecidableEq

structure RawRow where
  id : String
  document : String
  metadata : DocMeta
  distance : Int
deriving Repr, DecidableEq

/-- A value of the returned JSON-like dictionary. -/
inductive DVal where
  | rows (rs : List ResultRow)
  | num (n : Nat)
  | str (s : String)
deriving Repr, DecidableEq

/-- The valid_collections mapping of query_unified: alpha and beta
resolve to the two collections, anything else is unknown. -/
def validCollectionLookup (db : DBState) (name : String) : Option Collection :=
  if name == "alpha" then some db.alpha
  else if name == "beta" then some db.beta
  else none

/-- Stable insertion of a result row behind every row with distance at
most its own, preserving the arrival order of ties. -/
def insertByDistance (r : ResultRow) : List ResultRow → List ResultRow
  | [] => [r]
  | x :: xs => if x.distance ≤ r.distance then x :: insertByDistance r xs else r :: x :: xs

/-- results.sort keyed on distance: a stable ascending sort. -/
def sortRows (l : List ResultRow) : List ResultRow :=
  l.foldl (fun acc r => insertByDistance r acc) []

/-- One iteration of the query loop: an unknown collection name is
logged and skipped, a known one is queried and its rows are tagged
with the collection name and appended. -/
def queryStep (chromaQuery : Collection → String → Nat → Option String → List RawRow)
    (db : DBState) (query_text : String) (n_results : Nat)
    (project_filter : Option String) (acc : List ResultRow) (col_name : String) :
    List ResultRow :=
  match validCollectionLookup db col_name with
  | none => acc
  | some col =>
    acc ++ (chromaQuery col query_text n_results project_filter).map
      (fun r => { id := r.id, document := r.document, metadata := r.metadata,
                  distance := r.distance, collection := col_name })

/-- DualSourceKnowledgeDB.query_unified: reject a blank query, fold the
query loop over the requested collection names, sort all rows by
ascending distance, and return the dictionary carrying exactly the
keys results (truncated to n_results) and total_matches. -/
def queryUnified (chromaQuery : Collection → String → Nat → Option String → List RawRow)
    (db : DBState) (query_text : String) (n_results : Nat)
    (collections : List String) (project_filter : Option String) :
    Except PyExc (List (String × DVal)) :=
  if isBlank query_text then
    Except.error (PyExc.valueError "query_text cannot be empty")
  else
    let results := collections.foldl (queryStep chromaQuery db query_text n_results project_filter) []
    Except.ok [("results", DVal.rows ((sortRows results).take n_results)),
               ("total_matches", DVal.num results.length)]

/-- Key membership in the returned dictionary. -/
def dictHasKey (d : List (String × DVal)) (k : String) : Bool :=
  d.any (fun p => p.1 == k)

/-- api_server.handle_search reads the search_type field off the
query_unified result with a default: result.get with "unknown". -/
def handleSearchSearchType (d : List (String × DVal)) : DVal :=
  (d.lookup "search_type").getD (DVal.str "unknown")

/-- C3 counterexample: a successful query_unified call whose returned
dictionary has no search_type key at all — the claim that the key is
always present fails on this concrete call. -/
theorem c3_counterexample :
    (queryUnified (fun _ _ _ _ => []) ⟨[], []⟩ "hello" 10 ["alpha", "beta"] none).toOption.map
        (fun d => dictHasKey d "search_type") = some false := by
  decide


/-- C3 (amended): every successful query_unified call returns a
dictionary carrying exactly the keys results and total_matches and no
search_type key; the HTTP adapter therefore always fills the response
search_type field with its default string "unknown". -/
theorem c3_theorem (chromaQuery : Collection → String → Nat → Option String → List RawRow)
    (db : DBState) (q : String) (n : Nat) (cols : List String) (pf : Option String)
    (h : isBlank q = false) :
    ∃ rows total,
      queryUnified chromaQuery db q n cols pf =
        Except.ok [("results", DVal.rows rows), ("total_matches", DVal.num total)] ∧
        dictHasKey [("results", DVal.rows rows), ("total_matches", DVal.num total)]
            "search_type" = false ∧
        handleSearchSearchType
            [("results", DVal.rows rows), ("total_matches", DVal.num total)] =
          DVal.str "unknown" := by
  have hne : ¬ (isBlank q = true) := by rw [h]; exact Bool.false_ne_true
  refine ⟨(sortRows (cols.foldl (queryStep chromaQuery db q n pf) [])).take n,
          (cols.foldl (queryStep chromaQuery db q n pf) []).length, ?_, ?_, ?_⟩
  · unfold queryUnified
    rw [if_neg hne]
  · rfl
  · rfl

/-- Witness for c3_theorem on a concrete call. -/
theorem c3_witness :
    isBlank "hello" = false ∧
      (∃ rows total,
        queryUnified (fun _ _ _ _ => []) ⟨[], []⟩ "hello" 10 ["alpha"] none =
          Except.ok [("results", DVal.rows rows), ("total_matches", DVal.num total)] ∧
          dictHasKey [("results", DVal.rows rows), ("total_matches", DVal.num total)]
              "search_type" = false ∧
          handleSearchSearchType
              [("results", DVal.rows rows), ("total_matches", DVal.num total)] =
            DVal.str "unknown") :=
  ⟨by decide, c3_theorem (fun _ _ _ _ => []) ⟨[], []⟩ "hello" 10 ["alpha"] none (by decide)⟩

/-- C6 counterexample: query_unified called with the unknown collection
name gamma succeeds (the name is skipped with a warning) instead of
raising a ValidationError as claimed. -/
theorem c6_counterexample :
    (queryUnified (fun _ _ _ _ => []) ⟨[], []⟩ "hello" 10 ["gamma"] none).toOption.isSome =
      true := by
  decide

theorem foldl_queryStep_filter (chromaQuery : Collection → String → Nat → Option String → List RawRow)
    (db : DBState) (q : String) (n : Nat) (pf : Option String) :
    ∀ (cols : List String) (acc : List ResultRow),
      cols.foldl (queryStep chromaQuery db q n pf) acc =
        (cols.filter (fun c => c == "alpha" || c == "beta")).foldl
          (queryStep chromaQuery db q n pf) acc := by
  intro cols
  induction cols with
  | nil => intro acc; rfl
  | cons c rest ih =>
    intro acc
    by_cases ha : c = "alpha"
    · subst ha
      simp only [List.filter_cons]
      norm_num [List.foldl_cons, ih]
    · by_cases hb : c = "beta"
      · subst hb
        simp only [List.filter_cons]
        norm_num [List.foldl_cons, ih]
      · have hk : (c == "alpha" || c == "beta") = false := by
          simp [ha, hb]
        have hstep : queryStep chromaQuery db q n pf acc c = acc := by
          unfold queryStep validCollectionLookup
          have ha' : (c == "alpha") = false := by simp [ha]
          have hb' : (c == "beta") = false := by simp [hb]
          simp [ha', hb']
        simp only [List.filter_cons, hk, List.foldl_cons, hstep]
        exact ih acc

/-- C6 (amended): an unknown collection name in the collections
argument is ignored with a logged warning — the call behaves exactly
as if the list had been filtered down to the known names alpha and
beta — and the only validation failure query_unified raises is the
ValueError for a blank query. -/
theorem c6_theorem :
    (∀ (chromaQuery : Collection → String → Nat → Option String → List RawRow)
        (db : DBState) (q : String) (n : Nat) (cols : List String) (pf : Option String),
      queryUnified chromaQuery db q n cols pf =
        queryUnified chromaQuery db q n
          (cols.filter (fun c => c == "alpha" || c == "beta")) pf) ∧
      (∀ (chromaQuery : Collection → String → Nat → Option String → List RawRow)
          (db : DBState) (q : String) (n : Nat) (cols : List String) (pf : Option String),
        isBlank q = true →
          queryUnified chromaQuery db q n cols pf =
            Except.error (PyExc.valueError "query_text cannot be empty")) := by
  constructor
  · intro chromaQuery db q n cols pf
    unfold queryUnified
    by_cases hq : isBlank q = true
    · rw [if_pos hq, if_pos hq]
    · rw [if_neg hq, if_neg hq, foldl_queryStep_filter chromaQuery db q n pf cols []]
  · intro chromaQuery db q n cols pf h
    unfold queryUnified
    rw [if_pos h]

/-- Witness for c6_theorem on a concrete blank-query call. -/
theorem c6_witness :
    isBlank " " = true ∧
      queryUnified (fun _ _ _ _ => []) ⟨[], []⟩ " " 10 ["gamma"] none =
        Except.error (PyExc.valueError "query_text cannot be empty") :=
  ⟨by decide, c6_theorem.2 (fun _ _ _ _ => []) ⟨[], []⟩ " " 10 ["gamma"] none (by decide)⟩

/-! The bulk-archive ingest skip discipline
(ConversationIndexer.index_anthropic_export) and the per-file manifest
skip discipline (ConversationIndexer.index_claude_projects_jsonl).
File system observations (the glob result, the archive MD5, the
journal read, the collection count) are snapshot into an environment
record; the embedded functions are the decision logic the source runs
over that snapshot. -/

/-- Outcome of reading beta_import_state.json: the file may be absent,
unparseable (json.JSONDecodeError), or parsed with an optional md5
field (state.get returns none when the key is absent). -/
inductive JournalRead where
  | missing
  | corrupt
  | ok (md5 : Option String)
deriving Repr, DecidableEq

structure ExportEnv where
  zipFiles : List String
  zipMd5 : String
  journal : JournalRead
  betaCount : Option Nat
deriving Repr, DecidableEq

inductive ExportOutcome where
  | noArchive
  | skipped
  | imported
deriving Repr, DecidableEq

/-- ConversationIndexer._is_beta_empty: zero documents count as empty,
and a raised exception while reading stats (betaCount = none) is
treated as empty so that the ingest reimports. -/
def _is_beta_empty : Option Nat → Bool
  | none => true
  | some n => n == 0

/-- ConversationIndexer.index_anthropic_export, reduced to its control
decision: return with no work when no archive exists; otherwise skip
parsing and indexing exactly when the journal file exists, parses, its
md5 equals the archive hash, and the beta collection is not observed
empty; in every other case parse and reimport. -/
def index_anthropic_export (env : ExportEnv) : ExportOutcome :=
  if env.zipFiles.isEmpty then ExportOutcome.noArchive
  else
    let beta_empty := _is_beta_empty env.betaCount
    match env.journal with
    | JournalRead.missing => ExportOutcome.imported
    | JournalRead.corrupt => ExportOutcome.imported
    | JournalRead.ok stored =>
      if !beta_empty && (stored == some env.zipMd5) then ExportOutcome.skipped
      else ExportOutcome.imported

/-- C4: with an archive present, the bulk ingest returns immediately
with no work exactly when the stored journal hash equals the archive's
MD5 and the beta collection is observed non-empty; whenever the beta
collection is observed empty or its count cannot be read, the ingest
reimports regardless of any hash match. -/
theorem c4_theorem (env : ExportEnv) (h : env.zipFiles ≠ []) :
    (index_anthropic_export env = ExportOutcome.skipped ↔
        (env.journal = JournalRead.ok (some env.zipMd5) ∧
          _is_beta_empty env.betaCount = false)) ∧
      (_is_beta_empty env.betaCount = true →
        index_anthropic_export env = ExportOutcome.imported) := by
  have hne : env.zipFiles.isEmpty = false := by
    rcases hz : env.zipFiles with _ | _
    · exact absurd hz h
    · rfl
  unfold index_anthropic_export
  rw [hne]
  simp only [Bool.false_eq_true, if_false]
  constructor
  · rcases hj : env.journal with _ | _ | stored
    · simp
    · simp
    · rcases hbe : _is_beta_empty env.betaCount with _ | _
      · by_cases hs : stored = some env.zipMd5
        · subst hs
          simp
        · have hsb : (stored == some env.zipMd5) = false := by simp [hs]
          simp [hsb, hs]
      · simp
  · intro hbe
    rcases hj : env.journal with _ | _ | stored
    · rfl
    · rfl
    · simp [hbe]

/-- Witness for c4_theorem on a concrete environment where the hash
matches and beta is non-empty. -/
theorem c4_witness :
    (⟨["data-2025.zip"], "abc123", JournalRead.ok (some "abc123"), some 5⟩ : ExportEnv).zipFiles ≠ [] ∧
      ((index_anthropic_export ⟨["data-2025.zip"], "abc123", JournalRead.ok (some "abc123"), some 5⟩ =
          ExportOutcome.skipped ↔
          ((⟨["data-2025.zip"], "abc123", JournalRead.ok (some "abc123"), some 5⟩ : ExportEnv).journal =
              JournalRead.ok (some "abc123") ∧
            _is_beta_empty (some 5) = false)) ∧
        (_is_beta_empty (some 5) = true →
          index_anthropic_export ⟨["data-2025.zip"], "abc123", JournalRead.ok (some "abc123"), some 5⟩ =
            ExportOutcome.imported)) :=
  ⟨by simp, c4_theorem ⟨["data-2025.zip"], "abc123", JournalRead.ok (some "abc123"), some 5⟩ (by simp)⟩

/-! The per-file mtime manifest skip. -/

structure SrcFile where
  path : String
  mtime : Int
deriving Repr, DecidableEq

/-- Lookup in the alpha_index_manifest mapping of path to stored mtime. -/
def manifestLookup (manifest : List (String × Int)) (key : String) : Option Int :=
  (manifest.find? (fun p => p.1 == key)).map (fun p => p.2)

/-- The candidate-collection loop of index_claude_projects_jsonl: a
file is kept for parsing unless its path is in the manifest with a
stored mtime at least its current mtime. -/
def filesToParse (manifest : List (String × Int)) (candidates : List SrcFile) :
    List SrcFile :=
  candidates.filter (fun f =>
    match manifestLookup manifest f.path with
    | some stored => !(decide (stored ≥ f.mtime))
    | none => true)

/-- C5: a candidate file is passed to the decoder iff its path is
absent from the manifest or its current mtime is strictly greater than
the stored mtime; when the stored mtime is at least the current one
the decoder is not invoked on it. -/
theorem c5_theorem (manifest : List (String × Int)) (candidates : List SrcFile)
    (f : SrcFile) (h : f ∈ candidates) :
    f ∈ filesToParse manifest candidates ↔
      (manifestLookup manifest f.path = none ∨
        ∃ stored, manifestLookup manifest f.path = some stored ∧ stored < f.mtime) := by
  unfold filesToParse
  rw [List.mem_filter]
  rcases hl : manifestLookup manifest f.path with _ | stored
  · simp [h]
  · constructor
    · rintro ⟨_, hp⟩
      simp only [decide_eq_true_eq, Bool.not_eq_true'] at hp
      right
      refine ⟨stored, rfl, ?_⟩
      have := of_decide_eq_false hp
      omega
    · rintro (hc | ⟨stored', hs, hlt⟩)
      · cases hc
      · injection hs with hs
        subst hs
        refine ⟨h, ?_⟩
        simp only [Bool.not_eq_true', decide_eq_false_iff_not]
        omega

/-- Witness for c5_theorem: a file whose mtime moved forward past the
manifest entry is eligible again. -/
theorem c5_witness :
    (⟨"p/s.jsonl", 6⟩ : SrcFile) ∈ [(⟨"p/s.jsonl", 6⟩ : SrcFile)] ∧
      ((⟨"p/s.jsonl", 6⟩ : SrcFile) ∈ filesToParse [("p/s.jsonl", 5)] [⟨"p/s.jsonl", 6⟩] ↔
        (manifestLookup [("p/s.jsonl", 5)] "p/s.jsonl" = none ∨
          ∃ stored, manifestLookup [("p/s.jsonl", 5)] "p/s.jsonl" = some stored ∧
            stored < (6 : Int))) :=
  ⟨by decide, c5_theorem [("p/s.jsonl", 5)] [⟨"p/s.jsonl", 6⟩] ⟨"p/s.jsonl", 6⟩ (by decide)⟩

/-! Timestamp parsing in the two decoders.  The datetime library
primitives (datetime.fromisoformat, float, datetime.fromtimestamp,
datetime.strptime) are external collaborators passed in as functions
returning a value or a raised exception; the embedded definitions are
the try/except fallback chains of jsonl_parser._parse_timestamp and
ClaudeWebParser._parse_timestamp, which decide which exceptions are
caught and what each fallback returns.  Datetime values are abstract
integers; the distinguished constructor now marks the sentinel
datetime.now() taken at parse time. -/

inductive TSResult where
  | now
  | dt (v : Int)
deriving Repr, DecidableEq

/-- The fixed fallback value datetime(1970, 1, 1) returned by the web
parser, as an abstract datetime value. -/
def webEpochDefault : Int := 0

/-- The prioritized strptime format list of ClaudeWebParser. -/
def webFormats : List String :=
  ["%Y-%m-%dT%H:%M:%S.%fZ", "%Y-%m-%dT%H:%M:%SZ", "%Y-%m-%d %H:%M:%S", "%Y-%m-%d"]

/-- The format loop of ClaudeWebParser._parse_timestamp: try each
format, catching only ValueError and falling through to the next; when
every format has failed return datetime(1970, 1, 1). -/
def webTryFormats (strptime : String → String → Except PyExc Int) (s : String) :
    List String → Except PyExc TSResult
  | [] => Except.ok (TSResult.dt webEpochDefault)
  | fmt :: rest =>
    match strptime s fmt with
    | Except.ok d => Except.ok (TSResult.dt d)
    | Except.error (PyExc.valueError _) => webTryFormats strptime s rest
    | Except.error e => Except.error e

/-- ClaudeWebParser._parse_timestamp: an empty (falsy) timestamp string
returns datetime(1970, 1, 1) immediately, otherwise the format loop
runs. -/
def webParseTimestamp (strptime : String → String → Except PyExc Int) (s : String) :
    Except PyExc TSResult :=
  if s == "" then Except.ok (TSResult.dt webEpochDefault)
  else webTryFormats strptime s webFormats

/-- The first except clause of jsonl_parser._parse_timestamp:
ValueError and AttributeError are caught around fromisoformat. -/
def caughtByFirstClause : PyExc → Bool
  | PyExc.valueError _ => true
  | PyExc.attributeError _ => true
  | _ => false

/-- The second except clause of jsonl_parser._parse_timestamp:
ValueError and TypeError are caught around float and fromtimestamp. -/
def caughtBySecondClause : PyExc → Bool
  | PyExc.valueError _ => true
  | PyExc.typeError _ => true
  | _ => false

/-- jsonl_parser._parse_timestamp: a falsy input returns now; then
fromisoformat on the Z-normalized string is tried with the first
except clause; then float plus fromtimestamp with the second except
clause; when both attempts fail with caught exceptions the fallback is
now.  An uncaught exception kind propagates. -/
def jsonlParseTimestampStr (fromiso : String → Except PyExc Int)
    (pyFloat : String → Except PyExc Int) (fromtimestamp : Int → Except PyExc Int)
    (s : String) : Except PyExc TSResult :=
  if s == "" then Except.ok TSResult.now
  else
    match fromiso (s.replace "Z" "+00:00") with
    | Except.ok d => Except.ok (TSResult.dt d)
    | Except.error e =>
      if caughtByFirstClause e then
        match pyFloat s with
        | Except.ok f =>
          match fromtimestamp f with
          | Except.ok d => Except.ok (TSResult.dt d)
          | Except.error e2 =>
            if caughtBySecondClause e2 then Except.ok TSResult.now
            else Except.error e2
        | Except.error e2 =>
          if caughtBySecondClause e2 then Except.ok TSResult.now
          else Except.error e2
      else Except.error e

/-- jsonl_parser._parse_timestamp over its Optional[str] argument: a
falsy (absent) value returns now, a present string runs the fallback
chain above. -/
def jsonlParseTimestamp (fromiso : String → Except PyExc Int)
    (pyFloat : String → Except PyExc Int) (fromtimestamp : Int → Except PyExc Int)
    (ts : Option String) : Except PyExc TSResult :=
  match ts with
  | none => Except.ok TSResult.now
  | some s => jsonlParseTimestampStr fromiso pyFloat fromtimestamp s

/-- C7 counterexample: a string matching none of the web decoder's
supported formats (strptime raises ValueError on every format) makes
ClaudeWebParser._parse_timestamp return the fixed epoch datetime
1970-01-01, which is not the sentinel now. -/
theorem c7_counterexample :
    webParseTimestamp (fun _ _ => Except.error (PyExc.valueError "no match")) "garbage" =
        Except.ok (TSResult.dt webEpochDefault) ∧
      TSResult.dt webEpochDefault ≠ TSResult.now :=
  ⟨rfl, by decide⟩

theorem webTryFormats_all_fail (strptime : String → String → Except PyExc Int)
    (s : String) :
    ∀ fmts : List String,
      (∀ fmt ∈ fmts, ∃ m, strptime s fmt = Except.error (PyExc.valueError m)) →
      webTryFormats strptime s fmts = Except.ok (TSResult.dt webEpochDefault) := by
  intro fmts
  induction fmts with
  | nil => intro _; rfl
  | cons fmt rest ih =>
    intro hall
    obtain ⟨m, hm⟩ := hall fmt (List.mem_cons_self fmt rest)
    unfold webTryFormats
    rw [hm]
    exact ih (fun f hf => hall f (List.mem_cons_of_mem fmt hf))

theorem webTryFormats_never_now (strptime : String → String → Except PyExc Int)
    (s : String) :
    ∀ (fmts : List String) (r : TSResult),
      webTryFormats strptime s fmts = Except.ok r → r ≠ TSResult.now := by
  intro fmts
  induction fmts with
  | nil =>
    intro r hr
    unfold webTryFormats at hr
    injection hr with hr
    rw [← hr]
    decide
  | cons fmt rest ih =>
    intro r hr
    unfold webTryFormats at hr
    rcases hs : strptime s fmt with e | d
    · rw [hs] at hr
      rcases e with m | m | m | m
      · exact ih r hr
      · cases hr
      · cases hr
      · cases hr
    · rw [hs] at hr
      injection hr with hr
      rw [← hr]
      exact fun hc => nomatch hc

/-- C7 (amended): neither decoder's timestamp parser rejects a message
for an unparseable timestamp string — every caught parse failure falls
through to a fallback value — but the fallback sentinels differ: the
session-log decoder falls back to now (for a missing timestamp and
whenever both parse attempts fail with caught exceptions), while the
web decoder never returns now and falls back to the fixed epoch
datetime 1970-01-01 when no supported format matches. -/
theorem c7_theorem :
    (∀ (strptime : String → String → Except PyExc Int) (s : String),
        (∀ fmt ∈ webFormats, ∃ m, strptime s fmt = Except.error (PyExc.valueError m)) →
        webParseTimestamp strptime s = Except.ok (TSResult.dt webEpochDefault)) ∧
      (∀ (strptime : String → String → Except PyExc Int) (s : String) (r : TSResult),
        webParseTimestamp strptime s = Except.ok r → r ≠ TSResult.now) ∧
      (∀ (fromiso pyFloat : String → Except PyExc Int)
          (fromtimestamp : Int → Except PyExc Int) (s : String) (m1 m2 : String),
        fromiso (s.replace "Z" "+00:00") = Except.error (PyExc.valueError m1) →
        pyFloat s = Except.error (PyExc.valueError m2) →
        jsonlParseTimestamp fromiso pyFloat fromtimestamp (some s) =
          Except.ok TSResult.now) ∧
      (∀ (fromiso pyFloat : String → Except PyExc Int)
          (fromtimestamp : Int → Except PyExc Int),
        jsonlParseTimestamp fromiso pyFloat fromtimestamp none = Except.ok TSResult.now) := by
  refine ⟨?_, ?_, ?_, ?_⟩
  · intro strptime s hall
    unfold webParseTimestamp
    by_cases he : s == ""
    · rw [if_pos he]
    · rw [if_neg he]
      exact webTryFormats_all_fail strptime s webFormats hall
  · intro strptime s r hr
    unfold webParseTimestamp at hr
    by_cases he : s == ""
    · rw [if_pos he] at hr
      injection hr with hr
      rw [← hr]
      decide
    · rw [if_neg he] at hr
      exact webTryFormats_never_now strptime s webFormats r hr
  · intro fromiso pyFloat fromtimestamp s m1 m2 h1 h2
    show jsonlParseTimestampStr fromiso pyFloat fromtimestamp s = Except.ok TSResult.now
    unfold jsonlParseTimestampStr
    by_cases he : s == ""
    · rw [if_pos he]
    · rw [if_neg he, h1]
      simp only [caughtByFirstClause, if_true]
      rw [h2]
      rfl
  · intro fromiso pyFloat fromtimestamp
    rfl

/-- Witness for c7_theorem on concrete failing library stubs. -/
theorem c7_witness :
    webParseTimestamp (fun _ _ => Except.error (PyExc.valueError "bad")) "2025-13-99x" =
        Except.ok (TSResult.dt webEpochDefault) ∧
      jsonlParseTimestamp (fun _ => Except.error (PyExc.valueError "bad"))
          (fun _ => Except.error (PyExc.valueError "bad"))
          (fun _ => Except.ok 0) (some "garbage") = Except.ok TSResult.now :=
  ⟨c7_theorem.1 (fun _ _ => Except.error (PyExc.valueError "bad")) "2025-13-99x"
      (fun _ _ => ⟨"bad", rfl⟩),
    c7_theorem.2.2.1 (fun _ => Except.error (PyExc.valueError "bad"))
      (fun _ => Except.error (PyExc.valueError "bad"))
      (fun _ => Except.ok 0) "garbage" "bad" "bad" rfl rfl⟩

/-! The memory-file decoder (memory_parser.parse_memory_file) and its
consumer (ConversationIndexer.index_memory_files).  The Conversation
dataclass it constructs is the one declared in jsonl_parser; the
keyword arguments the call site passes are checked against the
declared fields exactly as a Python dataclass init does, raising
TypeError on an unexpected keyword.  hashlib.md5 is an external
collaborator passed as a function. -/

/-- The fields declared by the Conversation dataclass in jsonl_parser:
id, timestamp, messages, and the optional project, cwd, git_branch. -/
def conversationDataclassFields : List String :=
  ["id", "timestamp", "messages", "project", "cwd", "git_branch"]

/-- The keyword arguments parse_memory_file passes to Conversation. -/
def memoryConversationKwargs : List String :=
  ["id", "timestamp", "messages", "project", "source"]

/-- A Python dataclass init: every keyword argument must name a
declared field, otherwise TypeError is raised. -/
def dataclassInitCheck (declared kwargs : List String) : Except PyExc Unit :=
  if kwargs.all (fun k => declared.contains k) then Except.ok ()
  else Except.error (PyExc.typeError "unexpected keyword argument")

/-- jsonl_parser._decode_project_path: split the encoded directory
name on dashes, prefer the segment list after a literal "project"
part, otherwise fall back to the last two (or last, or whole) parts. -/
def _decode_project_path (encoded_path : String) : String :=
  let parts := (encoded_path.splitOn "-").filter (fun p => !(p == ""))
  let fallback :=
    if parts.length ≥ 2 then String.intercalate "-" (parts.drop (parts.length - 2))
    else
      match parts with
      | [] => encoded_path
      | _ => (parts.getLast?).getD encoded_path
  match parts.indexOf? "project" with
  | some i =>
    if i + 1 < parts.length then String.intercalate "-" (parts.drop (i + 1))
    else fallback
  | none => fallback

/-- Snapshot of one memory markdown file as parse_memory_file observes
it: existence, size, text content, encoded project directory name,
path and mtime. -/
structure MemFile where
  existsOnDisk : Bool
  size : Nat
  content : String
  encodedProject : String
  path : String
  mtime : Int
deriving Repr, DecidableEq

/-- memory_parser.parse_memory_file: missing, empty or blank files
yield None; otherwise the function computes the project name, the
stable md5-based conversation id and the single assistant message, and
then constructs Conversation with a source keyword argument — the
dataclass init check raises TypeError, the except handler catches it,
and None is returned. -/
def parse_memory_file (md5hex : String → String) (f : MemFile) : Option Conv :=
  if f.existsOnDisk == false || f.size == 0 then none
  else if isBlank f.content then none
  else
    match dataclassInitCheck conversationDataclassFields memoryConversationKwargs with
    | Except.error _ => none
    | Except.ok _ =>
      some { id := "memory-" ++ (md5hex f.path).take 12,
             project := _decode_project_path f.encodedProject,
             cwd := "", git_branch := "", metadataSource := none,
             messages := [{ role := "assistant", content := f.content.trim,
                            timestamp := toString f.mtime }] }

/-- The per-file eligibility test of index_memory_files: keep a file
iff its path is absent from the manifest or its stored mtime is
strictly below the current one. -/
def memFileEligible (manifest : List (String × Int)) (f : MemFile) : Bool :=
  match manifestLookup manifest f.path with
  | none => true
  | some stored => decide (stored < f.mtime)

/-- ConversationIndexer.index_memory_files: filter the scanned files
through the manifest, parse each, and count one indexed file per
conversation actually returned by the decoder. -/
def index_memory_files (md5hex : String → String) (manifest : List (String × Int))
    (files : List MemFile) : Nat :=
  let files_to_parse := files.filter (memFileEligible manifest)
  files_to_parse.foldl (fun acc f =>
    match parse_memory_file md5hex f with
    | some _ => acc + 1
    | none => acc) 0

theorem parse_memory_file_none (md5hex : String → String) (f : MemFile) :
    parse_memory_file md5hex f = none := by
  unfold parse_memory_file
  by_cases h1 : (f.existsOnDisk == false || f.size == 0) = true
  · rw [if_pos h1]
  · rw [if_neg h1]
    by_cases h2 : isBlank f.content = true
    · rw [if_pos h2]
    · rw [if_neg h2]
      rfl

/-- C8: parse_memory_file returns None for every file — the
Conversation construction passes the undeclared keyword source, so the
TypeError is raised and swallowed by the except handler — and
consequently index_memory_files indexes nothing and always returns 0. -/
theorem c8_theorem :
    (∀ (md5hex : String → String) (f : MemFile), parse_memory_file md5hex f = none) ∧
      (∀ (md5hex : String → String) (manifest : List (String × Int))
          (files : List MemFile), index_memory_files md5hex manifest files = 0) := by
  constructor
  · exact parse_memory_file_none
  · intro md5hex manifest files
    unfold index_memory_files
    generalize (files.filter (memFileEligible manifest)) = fs
    induction fs with
    | nil => rfl
    | cons f rest ih =>
      show List.foldl _ (match parse_memory_file md5hex f with
        | some _ => 0 + 1
        | none => 0) rest = 0
      rw [parse_memory_file_none md5hex f]
      exact ih

/-! The deep health check (api_server._run_deep_check and
handle_health_deep).  The database object is modelled by the outcome
of its get_collection_stats call; attribute access on it is resolved
against the method set the DualSourceKnowledgeDB class actually
declares. -/

/-- The public and private methods DualSourceKnowledgeDB declares. -/
def dualSourceMethods : List String :=
  ["__init__", "_get_embedding_function", "index_conversation",
   "query_unified", "get_collection_stats", "get_stats"]

structure StatsVal where
  alphaCount : Nat
  betaCount : Nat
deriving Repr, DecidableEq

/-- A DualSourceKnowledgeDB instance as _run_deep_check observes it:
its get_collection_stats call either returns counts or raises. -/
structure DeepDB where
  getCollectionStats : Except PyExc StatsVal

/-- Python attribute resolution of db.test_search on the class:
AttributeError unless the class declares the method. -/
def testSearchAttr : Except PyExc Unit :=
  if dualSourceMethods.contains "test_search" then Except.ok ()
  else Except.error (PyExc.attributeError "no attribute test_search")

/-- The message str(e) stored into the health payload. -/
def excMessage : PyExc → String
  | PyExc.valueError m => m
  | PyExc.typeError m => m
  | PyExc.attributeError m => m
  | PyExc.runtimeError m => m

structure HealthStatus where
  status : String
  errorMsg : Option String
deriving Repr, DecidableEq

/-- api_server._run_deep_check: a missing database is UNHEALTHY; with
a database, the stats call and then the db.test_search() call run
inside the try block, and any exception flips the status to UNHEALTHY
with the message recorded; only if both succeeded would the status
stay OK. -/
def _run_deep_check (db : Option DeepDB) : HealthStatus :=
  match db with
  | none => { status := "UNHEALTHY", errorMsg := some "Database is not initialized" }
  | some m =>
    match m.getCollectionStats with
    | Except.error e => { status := "UNHEALTHY", errorMsg := some (excMessage e) }
    | Except.ok _ =>
      match testSearchAttr with
      | Except.error e => { status := "UNHEALTHY", errorMsg := some (excMessage e) }
      | Except.ok _ => { status := "OK", errorMsg := none }

/-- api_server.handle_health_deep: HTTP 503 for UNHEALTHY, 200
otherwise. -/
def handle_health_deep_code (db : Option DeepDB) : Nat :=
  if (_run_deep_check db).status == "UNHEALTHY" then 503 else 200

/-- C10: for every initialized (non-None) database, _run_deep_check
reports UNHEALTHY — db.test_search() hits a method
DualSourceKnowledgeDB does not define and the AttributeError is caught
and mapped to UNHEALTHY — so the health/deep endpoint responds 503. -/
theorem c10_theorem (m : DeepDB) :
    (_run_deep_check (some m)).status = "UNHEALTHY" ∧
      handle_health_deep_code (some m) = 503 := by
  have hs : (_run_deep_check (some m)).status = "UNHEALTHY" := by
    show (match m.getCollectionStats with
      | Except.error e => ({ status := "UNHEALTHY", errorMsg := some (excMessage e) } : HealthStatus)
      | Except.ok _ =>
        match testSearchAttr with
        | Except.error e => { status := "UNHEALTHY", errorMsg := some (excMessage e) }
        | Except.ok _ => { status := "OK", errorMsg := none }).status = "UNHEALTHY"
    rcases hg : m.getCollectionStats with e | v
    · rfl
    · rfl
  refine ⟨hs, ?_⟩
  unfold handle_health_deep_code
  rw [hs]
  rfl
